import Mathlib

/-
Verification of the MapWeavers character-sheet calculation engine.

The numeric core (scaling curves, glancing-blow and d20 roll interpolation,
overcast bonus, resource progression, damage pipeline) is embedded below as
Lean definitions, following the formula documents of the repository
(StatCalculations.md and the system-context document) and the launcher
script. Curves without logarithms are modelled over the rationals so they
evaluate by computation; the scaling and overcast formulas, which use real
logarithms and real exponents, are modelled over the reals.
-/

/-- Modelled from the spec: the engine module (sheet_tool) is not among the
source files; this is the shared points-to-multiplier scaling curve used by
Mana Density, PBD and Precision, per the formula of the source reference
document: for points between 0 and 100 the multiplier is 1.0 + points/100;
above 100 it is 2.0 + log(points/100)/log(100). Negative point values are
clamped to zero before use. -/
noncomputable def ScalingCurve.multiplier (points : ℝ) : ℝ :=
  if max points 0 ≤ 100 then 1 + max points 0 / 100
  else 2 + Real.log (max points 0 / 100) / Real.log 100

/-- Generic piecewise-linear interpolation over a sorted list of anchor
points, clamped to the first and last anchor values outside the range. -/
def interpolateAnchors : List (ℚ × ℚ) → ℚ → ℚ
  | [], _ => 0
  | [(_, y)], _ => y
  | (x1, y1) :: (x2, y2) :: rest, x =>
    if x ≤ x1 then y1
    else if x ≤ x2 then y1 + (y2 - y1) * (x - x1) / (x2 - x1)
    else interpolateAnchors ((x2, y2) :: rest) x

/-- Anchor table of the glancing-blow curve: accuracy/evasion ratio to
damage-retention multiplier. -/
def glancingAnchors : List (ℚ × ℚ) :=
  [(9/10, 0), (19/20, 1/4), (1, 1/2), (21/20, 3/4), (11/10, 1)]

/-- Modelled from the spec: the engine module (sheet_tool) is not among the
source files; glancing-blow multiplier per the source reference document. If
evasion is nonpositive the full damage goes through (explicit special case
avoiding division by zero); otherwise the accuracy/evasion ratio is
interpolated through the anchor table. -/
def GlancingBlowCurve.multiplier (effectiveAccuracy evasion : ℚ) : ℚ :=
  if evasion ≤ 0 then 1
  else interpolateAnchors glancingAnchors (effectiveAccuracy / evasion)

/-- Anchor table of the d20 roll-to-accuracy-multiplier curve. -/
def rollAnchors : List (ℚ × ℚ) :=
  [(1, 1/20), (2, 1/5), (5, 1/2), (10, 1), (15, 39/25), (19, 2), (20, 5)]

/-- Modelled from the spec: the engine module (sheet_tool) is not among the
source files; the anchor table is from the source reference document and the
rejection of rolls outside 1..20 (a RangeError, modelled as none) is from
the spec contract. -/
def RollMultiplierCurve.multiplier (roll : ℤ) : Option ℚ :=
  if roll < 1 ∨ 20 < roll then none
  else some (interpolateAnchors rollAnchors (roll : ℚ))

/-- Flat damage reduction from Physical Defense: DR = floor(points / 5). -/
def damageReduction (physicalDefense : ℕ) : ℕ :=
  physicalDefense / 5

/-- Modelled from the spec: the engine module (sheet_tool) is not among the
source files; incoming-hit resolution per the source documents: glancing blow
against the defender evasion is applied first; physical damage then has DR
subtracted, clamped at zero; non-physical damage skips DR. -/
def resolveIncomingHit (incomingDamage : ℤ) (attackerEffectiveAccuracy : ℚ)
    (defenderEvasion : ℚ) (defenderPhysicalDefense : ℕ) (isPhysical : Bool) : ℤ :=
  let afterGlancing : ℤ :=
    ⌊(incomingDamage : ℚ) *
      GlancingBlowCurve.multiplier attackerEffectiveAccuracy defenderEvasion⌋
  if isPhysical then max 0 (afterGlancing - (damageReduction defenderPhysicalDefense : ℤ))
  else afterGlancing

/-- Per-ability overcast settings: whether overcasting is allowed, the bonus
scale at a 2x mana spend, the diminishing-returns exponent, and the maximum
bonus. -/
structure OvercastConfig where
  enabled : Bool
  scale : ℝ
  power : ℝ
  cap : ℤ

/-- Modelled from the spec: the engine module (sheet_tool) is not among the
source files; overcast bonus per the source reference document. Zero when
disabled or when the effective spend does not exceed the effective base
cost; otherwise floor(scale * log2(ratio)^power) capped at the configured
maximum, where ratio = spentEff / baseCostEff. -/
noncomputable def OvercastCalculator.bonus (baseCostEff spentEff : ℝ)
    (config : OvercastConfig) : ℤ :=
  if config.enabled = true ∧ baseCostEff < spentEff then
    min ⌊config.scale * Real.logb 2 (spentEff / baseCostEff) ^ config.power⌋ config.cap
  else 0

/-- The three ability slots. -/
inductive AbilitySlot where
  | core
  | inner
  | outer

/-- Fixed slot damage multipliers: Core 1.50, Inner 1.00, Outer 0.75. -/
noncomputable def AbilitySlot.damageMult : AbilitySlot → ℝ
  | .core => 3/2
  | .inner => 1
  | .outer => 3/4

/-- Fixed slot mana-cost multipliers: Core 0.75, Inner 1.00, Outer 2.00. -/
noncomputable def AbilitySlot.manaMult : AbilitySlot → ℝ
  | .core => 3/4
  | .inner => 1
  | .outer => 2

/-- Character stat points: a nonnegative integer per stat. -/
structure StatBlock where
  meleeAccuracy : ℕ
  rangedAccuracy : ℕ
  spellcraft : ℕ
  pbd : ℕ
  precision : ℕ
  physicalDefense : ℕ
  evasion : ℕ
  wisdom : ℕ
  utility : ℕ
  agility : ℕ
  strength : ℕ
  manaDensity : ℕ

/-- Flags of an item relevant to damage resolution. -/
structure Item where
  applyBonus : Bool
  isRanged : Bool

/-- Modelled from the spec: the engine module (sheet_tool) is not among the
source files; weapon damage before any glancing-blow pass, under the default
Multiplicative scaling strategy of the source documents: base damage is the
dice roll plus the flat bonus; with the bonus enabled the base is scaled by
the shared curve applied to Precision (ranged) or PBD (melee) and floored;
otherwise it stands. -/
noncomputable def weaponBaseDamage (item : Item) (stats : StatBlock)
    (diceRoll flatBonus : ℤ) : ℤ :=
  let base := diceRoll + flatBonus
  if item.applyBonus = true then
    ⌊(base : ℝ) * ScalingCurve.multiplier
      (if item.isRanged = true then (stats.precision : ℝ) else (stats.pbd : ℝ))⌋
  else base

/-- Modelled from the spec: the engine module (sheet_tool) is not among the
source files; weapon attack resolution: pre-glancing damage as above; when
both a d20 roll and an evasion value are supplied, the roll multiplier and
glancing-blow curve are applied (an out-of-range roll propagates the
failure); otherwise the damage stands as computed. Returns the final damage
and the hit flag. -/
noncomputable def resolveWeaponAttack (item : Item) (stats : StatBlock)
    (diceRoll flatBonus : ℤ) (d20 : Option ℤ) (targetEvasion : Option ℚ) :
    Option (ℤ × Bool) :=
  let damage := weaponBaseDamage item stats diceRoll flatBonus
  match d20, targetEvasion with
  | some r, some ev =>
    (RollMultiplierCurve.multiplier r).map (fun rollMult =>
      let acc : ℚ :=
        ((if item.isRanged = true then stats.rangedAccuracy else stats.meleeAccuracy : ℕ) : ℚ)
      let g := GlancingBlowCurve.multiplier (acc * rollMult) ev
      (⌊(damage : ℚ) * g⌋, decide (0 < g)))
  | _, _ => some (damage, true)

/-- Modelled from the spec: the engine module (sheet_tool) is not among the
source files; ability cast resolution per the source reference document:
effective base cost and effective spend are the
mana cost and mana spent scaled by the slot mana multiplier and ceiled; the
overcast bonus is added to the rolled damage, which is then scaled by the slot
damage multiplier and the Mana Density multiplier and floored; an optional
glancing-blow pass identical to the weapon attack follows. Returns the final
damage and the mana deducted (the effective spend). -/
noncomputable def resolveAbilityCast (slot : AbilitySlot) (flatBonus : ℤ)
    (manaCost : ℝ) (cfg : OvercastConfig) (stats : StatBlock) (diceRoll : ℤ)
    (manaSpent : ℝ) (d20 : Option ℤ) (targetEvasion : Option ℚ) :
    Option (ℤ × ℤ) :=
  let baseCostEff : ℤ := ⌈manaCost * slot.manaMult⌉
  let spentEff : ℤ := ⌈manaSpent * slot.manaMult⌉
  let overcastBonus := OvercastCalculator.bonus (baseCostEff : ℝ) (spentEff : ℝ) cfg
  let damage : ℤ :=
    ⌊((diceRoll + flatBonus + overcastBonus : ℤ) : ℝ) * slot.damageMult *
      ScalingCurve.multiplier (stats.manaDensity : ℝ)⌋
  match d20, targetEvasion with
  | some r, some ev =>
    (RollMultiplierCurve.multiplier r).map (fun rollMult =>
      let g := GlancingBlowCurve.multiplier ((stats.spellcraft : ℚ) * rollMult) ev
      (⌊(damage : ℚ) * g⌋, spentEff))
  | _, _ => some (damage, spentEff)

/-- Modelled from the spec: the engine module (sheet_tool) is not among the
source files; HP gained by one spent point at a given max HP, per the tier
table of the source reference document: +2 below 100, +1 at or above 100. -/
def hpGainStep (maxHP : ℕ) : ℕ :=
  if maxHP < 100 then 2 else 1

/-- Max HP after spending a number of points one at a time, each point
applying the tiered gain at the running max. -/
def hpAfterSpend (maxHP : ℕ) : ℕ → ℕ
  | 0 => maxHP
  | n + 1 => hpAfterSpend maxHP n + hpGainStep (hpAfterSpend maxHP n)

/-- Mana progression state: the running max Mana together with the points
already paid toward the next +2 above the soft cap. Modelled from the spec:
the executable engine is not among the source files; the tier table is from
the source reference document and the accumulation of partial remainders
across spends is from the spec contract. -/
structure ManaState where
  maxMana : ℕ
  carry : ℕ

/-- Spending one point on Mana: +1 below 50 max; at or above 50 the point is
paid toward a block of three, the third completed point granting +2. -/
def manaSpendPoint (s : ManaState) : ManaState :=
  if s.maxMana < 50 then ⟨s.maxMana + 1, s.carry⟩
  else if s.carry = 2 then ⟨s.maxMana + 2, 0⟩
  else ⟨s.maxMana, s.carry + 1⟩

/-- Mana state after spending a number of points one at a time. -/
def manaAfterSpend (s : ManaState) : ℕ → ManaState
  | 0 => s
  | n + 1 => manaSpendPoint (manaAfterSpend s n)

/-- Outcome of the launch script: exit with status zero before constructing
the application, or construct CharacterApp with the given initial paths and
DM flag and enter its main loop. -/
inductive LaunchOutcome where
  | exitZero
  | runApp (initialPaths : List String) (isDM : Bool)
  deriving DecidableEq

/-- The SheetTool launcher after the login dialog and the file picker: a DM
always gets the app, with the picked path as the only initial path or an
empty list; a player without a picked path exits with status zero, otherwise
gets the app on that single path. -/
def launchSheetTool (isDM : Bool) (pickedPath : Option String) : LaunchOutcome :=
  if isDM = true then
    .runApp (match pickedPath with | some p => [p] | none => []) true
  else
    match pickedPath with
    | none => .exitZero
    | some p => .runApp [p] false

/-- C10: in the SheetTool launch script, a player login with no picked
character file exits via sys.exit(0) without constructing CharacterApp; a DM
login always constructs CharacterApp and enters its main loop, with initial
paths the singleton of the picked file or the empty list; a player login with
a picked file runs the app on that single path. -/
theorem launcher_behavior :
    launchSheetTool false none = LaunchOutcome.exitZero ∧
    (∀ s : String, launchSheetTool false (some s) = LaunchOutcome.runApp [s] false) ∧
    (∀ s : String, launchSheetTool true (some s) = LaunchOutcome.runApp [s] true) ∧
    launchSheetTool true none = LaunchOutcome.runApp [] true :=
  ⟨rfl, fun _ => rfl, fun _ => rfl, rfl⟩

/-- C6: incoming-hit resolution applies the glancing-blow multiplier first;
only for physical damage is DR = floor(physicalDefense / 5) then subtracted,
clamped at zero (DR is 0 for Physical Defense 0..4, 1 for 5..9, 2 for
10..14); non-physical damage never has DR subtracted. -/
theorem incoming_hit_spec (d : ℤ) (acc ev : ℚ) (pd : ℕ) :
    resolveIncomingHit d acc ev pd true =
      max 0 (⌊(d : ℚ) * GlancingBlowCurve.multiplier acc ev⌋ - (damageReduction pd : ℤ)) ∧
    resolveIncomingHit d acc ev pd false = ⌊(d : ℚ) * GlancingBlowCurve.multiplier acc ev⌋ ∧
    (pd ≤ 4 → damageReduction pd = 0) ∧
    (5 ≤ pd → pd ≤ 9 → damageReduction pd = 1) ∧
    (10 ≤ pd → pd ≤ 14 → damageReduction pd = 2) := by
  refine ⟨rfl, rfl, ?_, ?_, ?_⟩ <;>
    · intros
      unfold damageReduction
      omega

/-- Witness for C6: Physical Defense 7 yields DR 1, by the theorem at a
concrete input. -/
theorem incoming_hit_spec_witness : damageReduction 7 = 1 :=
  (incoming_hit_spec 20 95 100 7).2.2.2.1 (by norm_num) (by norm_num)

/-- C2: the scaling curve is 1 + points/100 on 0 ≤ points ≤ 100 and
2 + log(points/100)/log(100) above 100, with the same log base in numerator
and denominator; in particular it takes the values 1.00 at 0, 1.71 at 71,
2.00 at 100 and exactly 3.00 at 10000. -/
theorem scaling_curve_formula :
    (∀ p : ℝ, 0 ≤ p → p ≤ 100 → ScalingCurve.multiplier p = 1 + p / 100) ∧
    (∀ p : ℝ, 100 < p →
      ScalingCurve.multiplier p = 2 + Real.log (p / 100) / Real.log 100) ∧
    ScalingCurve.multiplier 0 = 1 ∧
    ScalingCurve.multiplier 71 = 1.71 ∧
    ScalingCurve.multiplier 100 = 2 ∧
    ScalingCurve.multiplier 10000 = 3 := by
  have h1 : ∀ p : ℝ, 0 ≤ p → p ≤ 100 → ScalingCurve.multiplier p = 1 + p / 100 := by
    intro p h0 h100
    unfold ScalingCurve.multiplier
    rw [max_eq_left h0, if_pos h100]
  have h2 : ∀ p : ℝ, 100 < p →
      ScalingCurve.multiplier p = 2 + Real.log (p / 100) / Real.log 100 := by
    intro p hp
    unfold ScalingCurve.multiplier
    rw [max_eq_left (by linarith : (0:ℝ) ≤ p), if_neg (not_le.mpr hp)]
  refine ⟨h1, h2, ?_, ?_, ?_, ?_⟩
  · rw [h1 0 le_rfl (by norm_num)]; norm_num
  · rw [h1 71 (by norm_num) (by norm_num)]; norm_num
  · rw [h1 100 (by norm_num) le_rfl]; norm_num
  · rw [h2 10000 (by norm_num)]
    rw [show (10000 : ℝ) / 100 = 100 by norm_num,
      div_self (ne_of_gt (Real.log_pos (by norm_num)))]
    norm_num

/-- Witness for C2: the linear branch at 50 points, by the theorem at a
concrete input. -/
theorem scaling_curve_formula_witness : ScalingCurve.multiplier 50 = 1 + 50 / 100 :=
  scaling_curve_formula.1 50 (by norm_num) (by norm_num)

/-- C9: the scaling curve is strictly increasing on nonnegative points; in
particular it does not decrease or plateau across the junction at 100 between
the linear and the logarithmic region. -/
theorem scaling_curve_strict_mono (p q : ℝ) (hp : 0 ≤ p) (hpq : p < q) :
    ScalingCurve.multiplier p < ScalingCurve.multiplier q := by
  have hq : 0 ≤ q := le_of_lt (lt_of_le_of_lt hp hpq)
  unfold ScalingCurve.multiplier
  rw [max_eq_left hp, max_eq_left hq]
  have hlog100 : 0 < Real.log 100 := Real.log_pos (by norm_num)
  by_cases hq100 : q ≤ 100
  · rw [if_pos (le_trans hpq.le hq100), if_pos hq100]
    linarith
  · push_neg at hq100
    rw [if_neg (not_le.mpr hq100)]
    have hlogq : 0 < Real.log (q / 100) :=
      Real.log_pos (by rw [lt_div_iff₀ (by norm_num : (0:ℝ) < 100)]; linarith)
    by_cases hp100 : p ≤ 100
    · rw [if_pos hp100]
      have hterm : 0 < Real.log (q / 100) / Real.log 100 := div_pos hlogq hlog100
      linarith
    · push_neg at hp100
      rw [if_neg (not_le.mpr hp100)]
      have hlt : Real.log (p / 100) < Real.log (q / 100) :=
        Real.log_lt_log (by positivity) (by linarith)
      have := (div_lt_div_iff_of_pos_right hlog100).mpr hlt
      linarith

/-- Witness for C9: the curve increases from 0 to 100 points, by the theorem
at concrete inputs. -/
theorem scaling_curve_strict_mono_witness :
    ScalingCurve.multiplier 0 < ScalingCurve.multiplier 100 :=
  scaling_curve_strict_mono 0 100 le_rfl (by norm_num)

/-- Closed form of the glancing anchor interpolation: the five anchors are
collinear, so the interpolated value is 5 * ratio - 9/2 inside the range and
the end values outside it. -/
lemma interp_glancing_eval (r : ℚ) :
    interpolateAnchors glancingAnchors r =
      if r ≤ 9/10 then 0 else if 11/10 ≤ r then 1 else 5 * r - 9/2 := by
  simp only [glancingAnchors, interpolateAnchors]
  split_ifs <;> first
    | rfl
    | linarith
    | (ring_nf; try linarith)

/-- C3: the glancing-blow multiplier is total and never divides by zero: for
nonpositive evasion it is exactly 1 (full damage); otherwise it interpolates
the accuracy/evasion ratio through the anchor table, returning 0 for every
ratio at or below 0.90 and 1 for every ratio at or above 1.10; and for every
input the result lies in [0, 1]. -/
theorem glancing_blow_total_and_bounded (a e : ℚ) :
    (e ≤ 0 → GlancingBlowCurve.multiplier a e = 1) ∧
    (0 < e → GlancingBlowCurve.multiplier a e =
      interpolateAnchors glancingAnchors (a / e)) ∧
    (0 < e → a / e ≤ 9/10 → GlancingBlowCurve.multiplier a e = 0) ∧
    (0 < e → 11/10 ≤ a / e → GlancingBlowCurve.multiplier a e = 1) ∧
    0 ≤ GlancingBlowCurve.multiplier a e ∧
    GlancingBlowCurve.multiplier a e ≤ 1 := by
  unfold GlancingBlowCurve.multiplier
  by_cases he : e ≤ 0
  · rw [if_pos he]
    exact ⟨fun _ => rfl, fun h => absurd he (not_le.mpr h), fun h _ => absurd he (not_le.mpr h),
      fun _ _ => rfl, by norm_num, le_rfl⟩
  · rw [if_neg he]
    push_neg at he
    rw [interp_glancing_eval]
    refine ⟨fun h => absurd h (not_le.mpr he), fun _ => rfl, ?_, ?_, ?_, ?_⟩
    · intro _ hr
      rw [if_pos hr]
    · intro _ hr
      rw [if_neg (by linarith), if_pos hr]
    · split_ifs <;> linarith
    · split_ifs <;> linarith

/-- Witness for C3: a ratio of 0.85 against positive evasion is a miss, by
the theorem at a concrete input. -/
theorem glancing_blow_witness : GlancingBlowCurve.multiplier 85 100 = 0 :=
  (glancing_blow_total_and_bounded 85 100).2.2.1 (by norm_num) (by norm_num)

/-- C7: the d20 roll multiplier passes exactly through the anchors
(1,0.05), (2,0.20), (5,0.50), (10,1.00), (15,1.56), (19,2.00), (20,5.00);
every integer strictly between two adjacent anchors gets the linear
interpolation between them; and every input outside [1,20] fails (the
RangeError, modelled as none) rather than being clamped. -/
theorem roll_multiplier_spec :
    (∀ r : ℤ, r < 1 ∨ 20 < r → RollMultiplierCurve.multiplier r = none) ∧
    RollMultiplierCurve.multiplier 1 = some (1/20) ∧
    RollMultiplierCurve.multiplier 2 = some (1/5) ∧
    RollMultiplierCurve.multiplier 5 = some (1/2) ∧
    RollMultiplierCurve.multiplier 10 = some 1 ∧
    RollMultiplierCurve.multiplier 15 = some (39/25) ∧
    RollMultiplierCurve.multiplier 19 = some 2 ∧
    RollMultiplierCurve.multiplier 20 = some 5 ∧
    (∀ r : ℤ, 2 < r → r < 5 → RollMultiplierCurve.multiplier r =
      some (1/5 + (1/2 - 1/5) * ((r : ℚ) - 2) / (5 - 2))) ∧
    (∀ r : ℤ, 5 < r → r < 10 → RollMultiplierCurve.multiplier r =
      some (1/2 + (1 - 1/2) * ((r : ℚ) - 5) / (10 - 5))) ∧
    (∀ r : ℤ, 10 < r → r < 15 → RollMultiplierCurve.multiplier r =
      some (1 + (39/25 - 1) * ((r : ℚ) - 10) / (15 - 10))) ∧
    (∀ r : ℤ, 15 < r → r < 19 → RollMultiplierCurve.multiplier r =
      some (39/25 + (2 - 39/25) * ((r : ℚ) - 15) / (19 - 15))) := by
  refine ⟨?_, ?_, ?_, ?_, ?_, ?_, ?_, ?_, ?_, ?_, ?_, ?_⟩
  · intro r hr
    unfold RollMultiplierCurve.multiplier
    rw [if_pos hr]
  case refine_2 | refine_3 | refine_4 | refine_5 | refine_6 | refine_7 | refine_8 =>
    norm_num [RollMultiplierCurve.multiplier, interpolateAnchors, rollAnchors]
  all_goals
    intro r h1 h2
    interval_cases r <;>
      norm_num [RollMultiplierCurve.multiplier, interpolateAnchors, rollAnchors]

/-- Witness for C7: a roll of 3 in the gap between the anchors at 2 and 5,
by the theorem at a concrete input. -/
theorem roll_multiplier_witness :
    RollMultiplierCurve.multiplier 3 = some (1/5 + (1/2 - 1/5) * ((3 : ℚ) - 2) / (5 - 2)) :=
  roll_multiplier_spec.2.2.2.2.2.2.2.2.1 3 (by norm_num) (by norm_num)

/-- C8 part: spending one HP point grants +2 below the 100 soft cap and +1
at or above it; spending one Mana point grants +1 below 50; at or above 50
each block of three points grants +2, the carry persisting across separate
spends; and the cumulative gain for both pools never decreases as points
spent increases. -/
theorem resource_progression_spec :
    (∀ m n, hpAfterSpend m n < 100 → hpAfterSpend m (n + 1) = hpAfterSpend m n + 2) ∧
    (∀ m n, 100 ≤ hpAfterSpend m n → hpAfterSpend m (n + 1) = hpAfterSpend m n + 1) ∧
    (∀ (s : ManaState) (n : ℕ), (manaAfterSpend s n).maxMana < 50 →
      (manaAfterSpend s (n + 1)).maxMana = (manaAfterSpend s n).maxMana + 1) ∧
    (∀ m : ℕ, 50 ≤ m → manaAfterSpend ⟨m, 0⟩ 3 = ⟨m + 2, 0⟩) ∧
    (∀ (s : ManaState) (a b : ℕ),
      manaAfterSpend s (a + b) = manaAfterSpend (manaAfterSpend s a) b) ∧
    (∀ m n k, hpAfterSpend m n ≤ hpAfterSpend m (n + k)) ∧
    (∀ (s : ManaState) (n k : ℕ),
      (manaAfterSpend s n).maxMana ≤ (manaAfterSpend s (n + k)).maxMana) := by
  have hstep : ∀ s : ManaState, s.maxMana ≤ (manaSpendPoint s).maxMana := by
    intro s
    unfold manaSpendPoint
    split_ifs <;> simp
  refine ⟨?_, ?_, ?_, ?_, ?_, ?_, ?_⟩
  · intro m n h
    simp [hpAfterSpend, hpGainStep, if_pos h]
  · intro m n h
    simp [hpAfterSpend, hpGainStep, if_neg (not_lt.mpr h)]
  · intro s n h
    simp [manaAfterSpend, manaSpendPoint, if_pos h]
  · intro m hm
    have h : ¬ m < 50 := by omega
    simp [manaAfterSpend, manaSpendPoint, h]
  · intro s a b
    induction b with
    | zero => rfl
    | succ b ih => simp [manaAfterSpend, Nat.add_succ, ih]
  · intro m n k
    induction k with
    | zero => exact le_rfl
    | succ k ih =>
      have : hpAfterSpend m (n + k) ≤ hpAfterSpend m (n + k + 1) := by
        simp only [hpAfterSpend]
        omega
      calc hpAfterSpend m n ≤ hpAfterSpend m (n + k) := ih
        _ ≤ hpAfterSpend m (n + (k + 1)) := by rw [← Nat.add_assoc]; exact this
  · intro s n k
    induction k with
    | zero => exact le_rfl
    | succ k ih =>
      have : (manaAfterSpend s (n + k)).maxMana ≤ (manaAfterSpend s (n + k + 1)).maxMana := by
        simp only [manaAfterSpend]
        exact hstep _
      calc (manaAfterSpend s n).maxMana ≤ (manaAfterSpend s (n + k)).maxMana := ih
        _ ≤ (manaAfterSpend s (n + (k + 1))).maxMana := by rw [← Nat.add_assoc]; exact this

/-- Witness for C8: three points spent at 50 max Mana grant +2, by the
theorem at a concrete input. -/
theorem resource_progression_witness : manaAfterSpend ⟨50, 0⟩ 3 = ⟨52, 0⟩ :=
  resource_progression_spec.2.2.2.1 50 (by norm_num)

/-- C5: under the default Multiplicative scaling strategy, the pre-glancing
weapon damage with the bonus enabled is floor of (diceRoll + flatBonus) times
the scaling curve at PBD for melee and at Precision for ranged items; with
the bonus disabled it is exactly diceRoll + flatBonus, unchanged. -/
theorem weapon_attack_multiplicative (item : Item) (stats : StatBlock)
    (diceRoll flatBonus : ℤ) :
    (item.applyBonus = true → item.isRanged = false →
      resolveWeaponAttack item stats diceRoll flatBonus none none =
        some (⌊((diceRoll + flatBonus : ℤ) : ℝ) *
          ScalingCurve.multiplier (stats.pbd : ℝ)⌋, true)) ∧
    (item.applyBonus = true → item.isRanged = true →
      resolveWeaponAttack item stats diceRoll flatBonus none none =
        some (⌊((diceRoll + flatBonus : ℤ) : ℝ) *
          ScalingCurve.multiplier (stats.precision : ℝ)⌋, true)) ∧
    (item.applyBonus = false →
      resolveWeaponAttack item stats diceRoll flatBonus none none =
        some (diceRoll + flatBonus, true)) := by
  refine ⟨?_, ?_, ?_⟩ <;>
    · intro h1
      try intro h2
      simp_all [resolveWeaponAttack, weaponBaseDamage]

/-- Witness for C5: a 2d8+2 weapon rolled 10 with PBD 50 (Multiplicative
strategy) deals floor(12 * 1.5) = 18, by the theorem at a concrete input. -/
theorem weapon_attack_multiplicative_witness :
    resolveWeaponAttack ⟨true, false⟩ ⟨0, 0, 0, 50, 0, 0, 0, 0, 0, 0, 0, 0⟩ 10 2
      none none = some (18, true) := by
  have h := (weapon_attack_multiplicative ⟨true, false⟩
    ⟨0, 0, 0, 50, 0, 0, 0, 0, 0, 0, 0, 0⟩ 10 2).1 rfl rfl
  rw [h]
  have hmul : ScalingCurve.multiplier ((50 : ℕ) : ℝ) = 3 / 2 := by
    unfold ScalingCurve.multiplier
    norm_num
  rw [hmul]
  norm_num

/-- C1: a Core-slot ability with dice roll 12, flat bonus 0, mana cost 10,
overcast disabled, 10 mana spent and caster Mana Density 50, with no d20
roll or evasion supplied, resolves to 27 final damage and 8 mana deducted
through the pipeline spentEff = ceil(manaSpent * slotManaMult) and
damage = floor((diceRoll + flatBonus + overcastBonus) * slotDamageMult *
manaDensityMult) with the Core multipliers 1.50 and 0.75. -/
theorem ability_cast_core_example :
    resolveAbilityCast AbilitySlot.core 0 10 ⟨false, 0, 0.85, 999⟩
      ⟨0, 0, 0, 0, 0, 0, 0, 0, 0, 0, 0, 50⟩ 12 10 none none = some (27, 8) := by
  have hceil : ⌈(10 : ℝ) * AbilitySlot.core.manaMult⌉ = 8 := by
    rw [show AbilitySlot.core.manaMult = 3 / 4 from rfl, Int.ceil_eq_iff]
    norm_num
  have hbonus : OvercastCalculator.bonus ((8 : ℤ) : ℝ) ((8 : ℤ) : ℝ)
      ⟨false, 0, 0.85, 999⟩ = 0 := by
    unfold OvercastCalculator.bonus
    simp
  have hmul : ScalingCurve.multiplier ((50 : ℕ) : ℝ) = 3 / 2 := by
    unfold ScalingCurve.multiplier
    norm_num
  simp only [resolveAbilityCast, hceil, hbonus, hmul]
  have hfloor : ⌊((12 + 0 + 0 : ℤ) : ℝ) * AbilitySlot.core.damageMult * (3 / 2)⌋ = 27 := by
    rw [show AbilitySlot.core.damageMult = 3 / 2 from rfl,
      show ((12 + 0 + 0 : ℤ) : ℝ) * (3 / 2) * (3 / 2) = ((27 : ℤ) : ℝ) by push_cast; ring,
      Int.floor_intCast]
  simp only [hfloor]

/-- Bracketing a 0.85 real power between rationals by comparing twentieth
powers: 0.85 = 17/20, so a < c^0.85 < b reduces to a^20 < c^17 < b^20. -/
lemma rpow_85_bounds (c a b : ℝ) (hc : 0 < c) (hb : 0 ≤ b)
    (h1 : a ^ 20 < c ^ 17) (h2 : c ^ 17 < b ^ 20) :
    a < c ^ (0.85 : ℝ) ∧ c ^ (0.85 : ℝ) < b := by
  have hy : (0:ℝ) < c ^ (0.85:ℝ) := Real.rpow_pos_of_pos hc _
  have key : (c ^ (0.85:ℝ)) ^ (20:ℕ) = c ^ (17:ℕ) := by
    rw [← Real.rpow_natCast (c ^ (0.85:ℝ)) 20, ← Real.rpow_mul hc.le]
    rw [show (0.85 : ℝ) * ((20:ℕ):ℝ) = ((17:ℕ):ℝ) by norm_num, Real.rpow_natCast]
  constructor
  · exact lt_of_pow_lt_pow_left₀ 20 hy.le (by rw [key]; exact h1)
  · exact lt_of_pow_lt_pow_left₀ 20 hb (by rw [key]; exact h2)

/-- The base-2 logarithm of a power of two. -/
lemma logb_two_pow (n : ℕ) : Real.logb 2 ((2:ℝ) ^ n) = n := by
  rw [← Real.rpow_natCast 2 n, Real.logb_rpow (by norm_num) (by norm_num)]

/-- Floor of five times a 0.85 real power, from a rational bracketing of the
base raised to the seventeenth power. -/
lemma floor_five_rpow (c : ℝ) (k : ℤ) (hc : 0 < c) (hk : 0 ≤ k)
    (h1 : ((k:ℝ)/5) ^ 20 < c ^ 17) (h2 : c ^ 17 < (((k+1:ℤ):ℝ)/5) ^ 20) :
    ⌊5 * c ^ (0.85:ℝ)⌋ = k := by
  obtain ⟨hlo, hhi⟩ := rpow_85_bounds c ((k:ℝ)/5) (((k+1:ℤ):ℝ)/5) hc
    (by positivity) h1 h2
  rw [Int.floor_eq_iff]
  push_cast at hlo hhi ⊢
  constructor
  · nlinarith
  · nlinarith

/-- Evaluation of the overcast bonus at spend ratios 1x, 2x, 4x, 8x and 16x
of a unit base cost, with scale 5, power 0.85 and any cap of at least 16. -/
lemma overcast_table (cap : ℤ) (hcap : 16 ≤ cap) :
    OvercastCalculator.bonus 1 1 ⟨true, 5, 0.85, cap⟩ = 0 ∧
    OvercastCalculator.bonus 1 2 ⟨true, 5, 0.85, cap⟩ = 5 ∧
    OvercastCalculator.bonus 1 4 ⟨true, 5, 0.85, cap⟩ = 9 ∧
    OvercastCalculator.bonus 1 8 ⟨true, 5, 0.85, cap⟩ = 12 ∧
    OvercastCalculator.bonus 1 16 ⟨true, 5, 0.85, cap⟩ = 16 := by
  unfold OvercastCalculator.bonus
  refine ⟨by norm_num, ?_, ?_, ?_, ?_⟩
  · rw [if_pos ⟨rfl, by norm_num⟩,
      show (2:ℝ)/1 = (2:ℝ)^(1:ℕ) by norm_num, logb_two_pow]
    rw [show ((1:ℕ):ℝ) = 1 by norm_num, Real.one_rpow]
    rw [show (5:ℝ) * 1 = ((5:ℤ):ℝ) by norm_num, Int.floor_intCast]
    exact min_eq_left (by linarith)
  · rw [if_pos ⟨rfl, by norm_num⟩,
      show (4:ℝ)/1 = (4:ℝ) by norm_num,
      show (4:ℝ) = (2:ℝ)^(2:ℕ) by norm_num, logb_two_pow,
      show (((2:ℕ)):ℝ) = (2:ℝ) by norm_num]
    rw [floor_five_rpow 2 9 (by norm_num) (by norm_num) (by norm_num) (by norm_num)]
    exact min_eq_left (by linarith)
  · rw [if_pos ⟨rfl, by norm_num⟩,
      show (8:ℝ)/1 = (8:ℝ) by norm_num,
      show (8:ℝ) = (2:ℝ)^(3:ℕ) by norm_num, logb_two_pow,
      show (((3:ℕ)):ℝ) = (3:ℝ) by norm_num]
    rw [floor_five_rpow 3 12 (by norm_num) (by norm_num) (by norm_num) (by norm_num)]
    exact min_eq_left (by linarith)
  · rw [if_pos ⟨rfl, by norm_num⟩,
      show (16:ℝ)/1 = (16:ℝ) by norm_num,
      show (16:ℝ) = (2:ℝ)^(4:ℕ) by norm_num, logb_two_pow,
      show (((4:ℕ)):ℝ) = (4:ℝ) by norm_num]
    rw [floor_five_rpow 4 16 (by norm_num) (by norm_num) (by norm_num) (by norm_num)]
    exact min_eq_left hcap

/-- C4 counterexample: with scale 5, power 0.85 and cap 999, the overcast
bonus at an 8x spend ratio over a unit base cost is 12, not the 13 the claim
states: floor(5 * log2(8)^0.85) = floor(5 * 3^0.85) = floor(12.72...) = 12. -/
theorem overcast_eight_x_is_twelve :
    OvercastCalculator.bonus 1 8 ⟨true, 5, 0.85, 999⟩ = 12 ∧
    OvercastCalculator.bonus 1 8 ⟨true, 5, 0.85, 999⟩ ≠ 13 := by
  have h := (overcast_table 999 (by norm_num)).2.2.2.1
  exact ⟨h, by rw [h]; norm_num⟩

/-- C4 amended: under the preconditions power > 0 and baseCostEff > 0 (with
the config invariants scale ≥ 0 and cap ≥ 0), the overcast bonus is 0
whenever overcasting is disabled or the spend does not exceed the base cost,
and otherwise is floor(scale * log2(spentEff/baseCostEff)^power) clamped to
[0, cap]; with scale 5, power 0.85 and cap at least 16, the bonus at spend
ratios 1x, 2x, 4x, 8x, 16x is 0, 5, 9, 12, 16 respectively (12 at 8x, not
the 13 of the original table); and the bonus never exceeds the cap. -/
theorem overcast_bonus_amended :
    (∀ (config : OvercastConfig) (baseCostEff spentEff : ℝ),
      0 < config.power → 0 < baseCostEff → 0 ≤ config.scale → 0 ≤ config.cap →
      ((config.enabled = false ∨ spentEff ≤ baseCostEff) →
        OvercastCalculator.bonus baseCostEff spentEff config = 0) ∧
      (config.enabled = true → baseCostEff < spentEff →
        OvercastCalculator.bonus baseCostEff spentEff config =
          max 0 (min ⌊config.scale * Real.logb 2 (spentEff / baseCostEff) ^ config.power⌋
            config.cap)) ∧
      OvercastCalculator.bonus baseCostEff spentEff config ≤ config.cap) ∧
    (∀ cap : ℤ, 16 ≤ cap →
      OvercastCalculator.bonus 1 1 ⟨true, 5, 0.85, cap⟩ = 0 ∧
      OvercastCalculator.bonus 1 2 ⟨true, 5, 0.85, cap⟩ = 5 ∧
      OvercastCalculator.bonus 1 4 ⟨true, 5, 0.85, cap⟩ = 9 ∧
      OvercastCalculator.bonus 1 8 ⟨true, 5, 0.85, cap⟩ = 12 ∧
      OvercastCalculator.bonus 1 16 ⟨true, 5, 0.85, cap⟩ = 16) := by
  refine ⟨?_, overcast_table⟩
  intro config b s hpow hb hscale hcap
  refine ⟨?_, ?_, ?_⟩
  · intro h
    unfold OvercastCalculator.bonus
    rw [if_neg]
    rintro ⟨he, hlt⟩
    rcases h with h | h
    · rw [h] at he
      exact Bool.false_ne_true he
    · linarith
  · intro he hlt
    unfold OvercastCalculator.bonus
    rw [if_pos ⟨he, hlt⟩]
    have hx : 0 < Real.logb 2 (s / b) :=
      Real.logb_pos (by norm_num) ((one_lt_div hb).mpr hlt)
    have hfl : 0 ≤ ⌊config.scale * Real.logb 2 (s / b) ^ config.power⌋ :=
      Int.floor_nonneg.mpr (mul_nonneg hscale (Real.rpow_nonneg hx.le _))
    exact (max_eq_right (le_min hfl hcap)).symm
  · unfold OvercastCalculator.bonus
    split_ifs
    · exact min_le_right _ _
    · exact hcap

/-- Witness for the amended C4: the table conjunct applied at cap 999,
yielding the 1x and 16x values. -/
theorem overcast_bonus_amended_witness :
    OvercastCalculator.bonus 1 1 ⟨true, 5, 0.85, 999⟩ = 0 ∧
    OvercastCalculator.bonus 1 16 ⟨true, 5, 0.85, 999⟩ = 16 :=
  ⟨(overcast_bonus_amended.2 999 (by norm_num)).1,
   (overcast_bonus_amended.2 999 (by norm_num)).2.2.2.2⟩
